import Mathlib

set_option maxHeartbeats 1000000
set_option maxRecDepth 8000

/-!
Shallow embedding of the semantic similarity and clustering engine of the
NCR problem-ranking backend (Go package `ranking`: `trigram.go`,
`tfidf.go`, `rpn.go`, `service.go` and the cluster data-model file),
together with theorems checking the specification's claims about it.

Modelling conventions.  Go strings are modelled as rune lists
(`List Char`); Go's `unicode` tables are external collaborators and are
modelled exactly on the character ranges the engine works with (ASCII and
Latin-1).  Go `float64` arithmetic is modelled by `ℚ` where the code only
forms ratios of integers (trigram Jaccard, LCS ratio, key-phrase scores)
and by `ℝ` where it calls `math.Log`, `math.Exp`, `math.Sqrt`,
`math.Log10` (TF-IDF weights, cosine norms, RPN).  Go maps are modelled
by their key sets together with value functions; where the code `range`s
over a map, whose enumeration order Go leaves unspecified, the model
takes the enumeration order as an explicit parameter constrained to be a
duplicate-free listing of the key set.
-/

namespace Ranking

abbrev Text := List Char

/-- Go `unicode.IsSpace` on the Latin-1 range: tab, newline, vertical
tab, form feed, carriage return, space, next-line, no-break space. -/
def isSpaceGo (c : Char) : Bool :=
  c == ' ' || c == '\t' || c == '\n' || c.toNat == 11 || c.toNat == 12 ||
    c == '\r' || c.toNat == 133 || c.toNat == 160

/-- Go `unicode.IsPrint`, exact on ASCII (graphic characters `0x21`
to `0x7E`; the space rune is routed to the `IsSpace` branch before this
test is reached).  Runes above ASCII are treated as printable, which
agrees with Go on every letter, digit, punctuation or symbol rune. -/
def isPrintGo (c : Char) : Bool :=
  (33 ≤ c.toNat && c.toNat ≤ 126) || 127 < c.toNat

/-- The builder loop of `normalizeWhitespace` (trigram.go): collapse runs
of space characters to a single `' '`, drop non-printable characters,
and never emit a leading space (`lastWasSpace` starts out `true`). -/
def normalizeWhitespaceAux : Bool → Text → Text
  | _, [] => []
  | lastWasSpace, c :: cs =>
    if isSpaceGo c then
      if lastWasSpace then normalizeWhitespaceAux true cs
      else ' ' :: normalizeWhitespaceAux true cs
    else if isPrintGo c then c :: normalizeWhitespaceAux false cs
    else normalizeWhitespaceAux lastWasSpace cs

/-- Go `strings.TrimSpace` on rune lists. -/
def trimSpaceGo (t : Text) : Text :=
  ((t.dropWhile isSpaceGo).reverse.dropWhile isSpaceGo).reverse

/-- `normalizeWhitespace` (trigram.go): the builder loop followed by
`strings.TrimSpace`. -/
def normalizeWhitespace (t : Text) : Text :=
  trimSpaceGo (normalizeWhitespaceAux true t)

/-- Go `strings.ToLower`, modelled by Lean's ASCII `Char.toLower`; the
Unicode case table is an external collaborator. -/
def lowerText (t : Text) : Text := t.map Char.toLower

/-- `GenerateTrigrams` (trigram.go): lowercase, normalize whitespace,
then collect every window of three consecutive runes into a set; texts
that normalize to one or two runes yield the whole text as the single
element, and texts that normalize to nothing yield the empty set. -/
def generateTrigrams (text : Text) : Finset Text :=
  let s := normalizeWhitespace (lowerText text)
  if s.length < 3 then (if 0 < s.length then {s} else ∅)
  else ((List.range (s.length - 2)).map fun i => (s.drop i).take 3).toFinset

/-- `CalculateSimilarity` (trigram.go): Jaccard index of two trigram
sets, with both-empty mapped to `1`, exactly one empty mapped to `0`,
and the union size computed as `card a + card b − card (a ∩ b)`. -/
def calculateSimilarity (a b : Finset Text) : ℚ :=
  if a.card = 0 ∧ b.card = 0 then 1
  else if a.card = 0 ∨ b.card = 0 then 0
  else
    let inter := (a ∩ b).card
    let union := a.card + b.card - inter
    if union = 0 then 0 else (inter : ℚ) / (union : ℚ)

/-- One entry of the `LongestCommonSubstring` dynamic-programming table
(trigram.go), re-expressed positionally: `dp[i][j]` is the length of the
longest common run of equal runes ending at positions `i`, `j`, which is
the common-prefix length of the suffixes starting where that run starts. -/
def commonPrefixLen : Text → Text → ℕ
  | a :: as, b :: bs => if a = b then commonPrefixLen as bs + 1 else 0
  | _, _ => 0

def maxList (l : List ℕ) : ℕ := l.foldr max 0

/-- `maxLen` of the `LongestCommonSubstring` table (trigram.go): the
maximum over all pairs of start positions of the common run length
starting there, over lowercased rune lists. -/
def lcsLen (s1 s2 : Text) : ℕ :=
  maxList ((lowerText s1).tails.map fun t1 =>
    maxList ((lowerText s2).tails.map fun t2 => commonPrefixLen t1 t2))

/-- `CalculateLCSSimilarity` (trigram.go): LCS length divided by the
longer rune length, with the empty-string special cases. -/
def calculateLCSSimilarity (s1 s2 : Text) : ℚ :=
  if s1.length = 0 ∧ s2.length = 0 then 1
  else if s1.length = 0 ∨ s2.length = 0 then 0
  else (lcsLen s1 s2 : ℚ) / (max s1.length s2.length : ℚ)

/-- The run accumulator of `strings.Fields`: `acc` holds the runes of
the current word in reverse; a space closes the word (empty runs are
dropped), the end of the text closes the last word. -/
def fieldsAux : Text → Text → List Text
  | acc, [] => if acc = [] then [] else [acc.reverse]
  | acc, c :: cs =>
    if isSpaceGo c then
      if acc = [] then fieldsAux [] cs else acc.reverse :: fieldsAux [] cs
    else fieldsAux (c :: acc) cs

/-- Go `strings.Fields`: the maximal runs of non-space runes. -/
def fieldsGo (t : Text) : List Text := fieldsAux [] t

/-- The cutset of `strings.Trim` in `ExtractKeywords` (trigram.go):
period, comma, semicolon, colon, bang, question mark, double and single
quote, round, square and curly brackets, slash and hyphen. -/
def punctChars : Text :=
  ['.', ',', ';', ':', '!', '?', '\"', '\'', '(', ')', '[', ']',
    Char.ofNat 123, Char.ofNat 125, '/', '-']

/-- `strings.Trim(word, cutset)`: strip leading and trailing cutset
runes. -/
def trimPunct (w : Text) : Text :=
  ((w.dropWhile fun c => punctChars.contains c).reverse.dropWhile
    fun c => punctChars.contains c).reverse

/-- The Indonesian stop-word table of `ExtractKeywords` (trigram.go). -/
def stopWords : List Text :=
  (["yang", "dan", "di", "ke", "dari", "untuk", "dengan", "pada", "adalah", "ini",
    "itu", "atau", "tidak", "ada", "oleh", "akan", "sudah", "juga", "dapat", "bisa",
    "lebih", "sebagai", "dalam", "karena", "telah", "saat", "setelah", "harus",
    "menjadi", "seperti", "tersebut", "belum", "sehingga", "namun", "bila",
    "apabila", "bahwa", "yaitu", "antara", "tetapi", "tapi"] : List String).map
    String.data

/-- `ExtractKeywords` (trigram.go): lowercase, split on whitespace, trim
surrounding punctuation from each token, keep tokens longer than two
runes that are not stop words.  Go measures the length in bytes; on the
ASCII texts the engine processes this equals the rune count used here. -/
def extractKeywords (t : Text) : List Text :=
  (fieldsGo (lowerText t)).filterMap fun w =>
    let w' := trimPunct w
    if 2 < w'.length ∧ w' ∉ stopWords then some w' else none

/-! ### The generic bubble sort

`SortClustersByRPN` (rpn.go), `GetTopTerms` (tfidf.go) and the score
sorts of `GetClusterSummary` and `ExtractKeyPhrase` (trigram.go) all use
the same two nested loops: the outer loop runs `n − 1` sweeps, the inner
sweep compares `budget` adjacent pairs left to right and swaps exactly
when the left key is strictly smaller than the right key (so the result
is descending and ties keep their order). -/

variable {α : Type*} {β : Type*}

/-- One inner sweep with a budget of `n` comparisons. -/
def bubblePassN (key : α → β) [LinearOrder β] : ℕ → List α → List α
  | _, [] => []
  | 0, l => l
  | _ + 1, [a] => [a]
  | n + 1, a :: b :: rest =>
    if key a < key b then b :: bubblePassN key n (a :: rest)
    else a :: bubblePassN key n (b :: rest)

/-- The outer loop: sweeps with shrinking budgets `k, k − 1, …, 1`,
matching `for j := 0; j < n-i-1; j++`. -/
def bubbleSweeps (key : α → β) [LinearOrder β] : ℕ → List α → List α
  | 0, l => l
  | k + 1, l => bubbleSweeps key k (bubblePassN key (k + 1) l)

/-- The whole bubble sort: `n − 1` sweeps over a list of length `n`. -/
def bubbleSortGo (key : α → β) [LinearOrder β] (l : List α) : List α :=
  bubbleSweeps key (l.length - 1) l

/-! ### TF-IDF (tfidf.go) -/

/-- Document frequency of keyword `w` over `corpus` (`Fit`): each
document counts at most once, via the `seen` set. -/
def docFreq (corpus : List Text) (w : Text) : ℕ :=
  corpus.countP fun d => (extractKeywords d).contains w

/-- The key set of `Fit`'s `docFreq` map, as a duplicate-free list; a Go
`range` over that map enumerates exactly these words, in an order the
language leaves unspecified. -/
def allKeywords (corpus : List Text) : List Text :=
  ((corpus.map extractKeywords).flatten).dedup

/-- A possible enumeration order of the `docFreq` map: any duplicate-free
listing of its key set. -/
def validEnum (corpus : List Text) (o : List Text) : Prop :=
  o.Perm (allKeywords corpus)

/-- The vocabulary built by `Fit` when the `docFreq` map is enumerated in
order `o`: the words seen in at least two documents, a word's index being
its position in this list. -/
def vocabListOf (corpus : List Text) (o : List Text) : List Text :=
  o.filter fun w => decide (2 ≤ docFreq corpus w)

/-- The smoothed inverse document frequency computed by `Fit`:
`ln(N / (1 + df)) + 1`.  `Fit` stores it in the `idf` array at the word's
vocabulary index; keying it by the word itself carries the same data,
since the vocabulary map is injective. -/
noncomputable def idfW (corpus : List Text) (w : Text) : ℝ :=
  Real.log ((corpus.length : ℝ) / (1 + (docFreq corpus w : ℝ))) + 1

/-- The `idf` array of `Fit` for enumeration order `o`: the IDF value at
each vocabulary index. -/
noncomputable def idfArrOf (corpus : List Text) (o : List Text) : List ℝ :=
  (vocabListOf corpus o).map (idfW corpus)

/-- `TFIDFVector` (tfidf.go): a Go map from vocabulary entries to weights
plus a precomputed L2 norm.  The map is modelled by its key set
(`support`) and its stored-value function, keyed by the vocabulary word
rather than by the word's index — the vocabulary map is injective, so
this is the same map up to that relabelling. -/
structure TFIDFVector where
  support : Finset Text
  val : Text → ℝ
  norm : ℝ

/-- The key set of the vector map built by `Transform` (tfidf.go): the
vocabulary words occurring in the document. -/
def tfidfSupport (corpus : List Text) (doc : Text) : Finset Text :=
  (extractKeywords doc).toFinset.filter fun w => 2 ≤ docFreq corpus w

/-- The weight `Transform` stores for a word carrying an entry:
`(count / totalTerms) · idf`; `0` for absent keys. -/
noncomputable def tfidfVal (corpus : List Text) (doc : Text) (w : Text) : ℝ :=
  if w ∈ tfidfSupport corpus doc then
    (((extractKeywords doc).count w : ℝ) / ((extractKeywords doc).length : ℝ)) *
      idfW corpus w
  else 0

/-- `Transform` (tfidf.go): entries exist for the vocabulary words that
occur in the document; the norm is the square root of the summed squared
weights.  The early returns — empty vocabulary, or a document without
keywords — both yield the empty vector with norm `0`; the second needs
the explicit guard below, the first already falls out of the general
branch. -/
noncomputable def transform (corpus : List Text) (doc : Text) : TFIDFVector :=
  if (extractKeywords doc).length = 0 then ⟨∅, fun _ => 0, 0⟩
  else ⟨tfidfSupport corpus doc, tfidfVal corpus doc,
    Real.sqrt ((tfidfSupport corpus doc).sum fun w =>
      tfidfVal corpus doc w * tfidfVal corpus doc w)⟩

/-- The dot-product loop of `CosineSimilarity` (tfidf.go): iterate the
entries of `a` and accumulate products over the keys that also carry an
entry of `b`. -/
noncomputable def dotProduct (a b : TFIDFVector) : ℝ :=
  (a.support ∩ b.support).sum fun w => a.val w * b.val w

/-- `CosineSimilarity` (tfidf.go): `0` when either norm is `0`, otherwise
the dot product over the product of norms. -/
noncomputable def cosineSimilarity (a b : TFIDFVector) : ℝ :=
  if a.norm = 0 ∨ b.norm = 0 then 0 else dotProduct a b / (a.norm * b.norm)

/-- `GetTopTerms` (tfidf.go): the vocabulary terms bubble-sorted by
descending IDF (stable, so equal-IDF terms keep the enumeration order
`o`), truncated to `n`. -/
noncomputable def getTopTerms (corpus : List Text) (o : List Text) (n : ℕ) : List Text :=
  (bubbleSortGo (idfW corpus) (vocabListOf corpus o)).take n

/-- `CalculateFromVectors` (tfidf.go) with the clustering weight profile
set by `NewSemanticSimilarity`: trigram 0.25, LCS 0.15, TF-IDF 0.60. -/
noncomputable def semanticCombined (t1 t2 : Text) (g1 g2 : Finset Text)
    (v1 v2 : TFIDFVector) : ℝ :=
  (calculateSimilarity g1 g2 : ℝ) * 0.25 + (calculateLCSSimilarity t1 t2 : ℝ) * 0.15 +
    cosineSimilarity v1 v2 * 0.60

/-! ### Data model and clustering (cluster data-model file) -/

/-- `ProblemData`: one report item carried through a ranking request.
Dates (`Tanggal`) are modelled as optional real-valued timestamps
measured in days; the cached `Trigrams` and `TFIDFVector` fields are
recomputed on demand by the defining functions, which produce the same
values the cache would hold. -/
structure ProblemData where
  id : String
  text : Text
  tanggal : Option ℝ
  status : String
  result : String
  kategori : Text
  department : String

instance : Inhabited ProblemData := ⟨⟨"", [], none, "", "", [], ""⟩⟩

/-- `Cluster`: a group of similar problems with centroid index and RPN
score (both `0` until set). -/
structure Cluster where
  problems : List ProblemData
  centroidIdx : ℕ
  rpnScore : ℝ

noncomputable instance : Inhabited Cluster := ⟨⟨[], 0, 0⟩⟩

def textAt (problems : List ProblemData) (i : ℕ) : Text :=
  (problems.getD i default).text

/-- The pairwise clustering similarity between items `i` and `j` used by
`ClusterDescriptionsSemanticWithStats`: `CalculateFromVectors` on the
items' texts, cached trigram sets and cached TF-IDF vectors. -/
noncomputable def clusterSim (problems : List ProblemData) (i j : ℕ) : ℝ :=
  semanticCombined (textAt problems i) (textAt problems j)
    (generateTrigrams (textAt problems i)) (generateTrigrams (textAt problems j))
    (transform (problems.map (·.text)) (textAt problems i))
    (transform (problems.map (·.text)) (textAt problems j))

/-- The greedy assignment loop of `ClusterDescriptionsSemanticWithStats`,
over item indices: the first unassigned item founds a cluster and absorbs
every later unassigned item whose similarity to the founder reaches the
threshold; the rest stay unassigned and are processed in order. -/
noncomputable def greedyCluster (sim : ℕ → ℕ → ℝ) (threshold : ℝ) :
    List ℕ → List (List ℕ)
  | [] => []
  | i :: rest =>
    (i :: rest.filter fun j => decide (threshold ≤ sim i j)) ::
      greedyCluster sim threshold (rest.filter fun j => !decide (threshold ≤ sim i j))
termination_by l => l.length
decreasing_by
  simpa using Nat.lt_succ_of_le (List.length_filter_le _ _)

/-- The clusters of a corpus, as lists of item indices. -/
noncomputable def clusterIndices (problems : List ProblemData) (threshold : ℝ) :
    List (List ℕ) :=
  greedyCluster (clusterSim problems) threshold (List.range problems.length)

/-- The clusters returned by `ClusterDescriptionsSemanticWithStats`
(centroid index and RPN score still `0`). -/
noncomputable def clustersOf (problems : List ProblemData) (threshold : ℝ) :
    List Cluster :=
  (clusterIndices problems threshold).map fun is =>
    ⟨is.map fun i => problems.getD i default, 0, 0⟩

/-- `ClusterStats` (cluster data-model file). -/
structure ClusterStats where
  totalProblems : ℕ
  vocabularySize : ℕ
  clusterCount : ℕ
  topTerms : List Text
  threshold : ℝ
  weightTrigram : ℝ
  weightLCS : ℝ
  weightTFIDF : ℝ

/-- The Go zero value `ClusterStats` returned by the empty-corpus path
of `GetTopProblemsWithStats`. -/
noncomputable def zeroStats : ClusterStats := ⟨0, 0, 0, [], 0, 0, 0, 0⟩

/-- The stats assembled by `ClusterDescriptionsSemanticWithStats`: total
and threshold are set up front, the vocabulary data and cluster count
only when the corpus is non-empty. -/
noncomputable def statsOf (problems : List ProblemData) (threshold : ℝ)
    (o : List Text) : ClusterStats :=
  if problems.length = 0 then ⟨0, 0, 0, [], threshold, 0, 0, 0⟩
  else
    ⟨problems.length, (vocabListOf (problems.map (·.text)) o).length,
      (clusterIndices problems threshold).length,
      getTopTerms (problems.map (·.text)) o 10, threshold, 0.25, 0.15, 0.60⟩

/-- `ClusterDescriptionsSemanticWithStats`: clusters plus stats, where
`o` is the order in which this run's `range` over the vocabulary map
enumerates it. -/
noncomputable def clusterDescriptionsSemanticWithStats
    (problems : List ProblemData) (threshold : ℝ) (o : List Text) :
    List Cluster × ClusterStats :=
  (clustersOf problems threshold, statsOf problems threshold o)

/-- Pairwise centroid-profile similarity (trigram 0.30, LCS 0.20, TF-IDF
0.50) between members `i` and `j` of one cluster, from
`SelectCentroidSemantic`. -/
noncomputable def centroidSim (corpus : List Text) (members : List ProblemData)
    (i j : ℕ) : ℝ :=
  (calculateSimilarity (generateTrigrams (textAt members i))
      (generateTrigrams (textAt members j)) : ℝ) * 0.30 +
    (calculateLCSSimilarity (textAt members i) (textAt members j) : ℝ) * 0.20 +
    cosineSimilarity (transform corpus (textAt members i))
      (transform corpus (textAt members j)) * 0.50

/-- `SelectCentroidSemantic`: the member with minimal average distance
`1 − sim` to the other members; ties resolve to the first index scanned,
starting from `minAvgDistance = 2.0` and `centroidIdx = 0`; clusters of
at most one member keep centroid `0`. -/
noncomputable def selectCentroidIdx (sim : ℕ → ℕ → ℝ) (k : ℕ) : ℕ :=
  if k ≤ 1 then 0
  else
    ((List.range k).foldl
      (fun acc i =>
        let avg := (((List.range k).filter fun j => decide (j ≠ i)).map
          fun j => 1 - sim i j).sum / ((k : ℝ) - 1)
        if avg < acc.2 then (i, avg) else acc)
      ((0 : ℕ), (2 : ℝ))).1

/-! ### RPN scoring (rpn.go) -/

/-- `RPNConfig` (rpn.go). -/
structure RPNConfig where
  frequencyWeight : ℝ
  recencyWeight : ℝ
  recencyDays : ℕ

/-- `DefaultRPNConfig` (rpn.go): weights 0.6 / 0.4, 90-day window. -/
noncomputable def defaultRPNConfig : RPNConfig := ⟨0.6, 0.4, 90⟩

/-- One iteration of the recency loop (`calculateRecencyScore`, rpn.go)
for a member dated `t`: the days elapsed until `now`, clamped below at
`0`, fed through the decay `10 · exp(−days / recencyDays)`. -/
noncomputable def recencyContribution (now : ℝ) (recencyDays : ℕ) (t : ℝ) : ℝ :=
  let daysSince := now - t
  let clamped := if daysSince < 0 then 0 else daysSince
  10 * Real.exp (-clamped / (recencyDays : ℝ))

/-- `calculateRecencyScore` (rpn.go): the average contribution over the
members that carry a date, `5` when none does, `0` for an empty cluster. -/
noncomputable def calculateRecencyScore (c : Cluster) (recencyDays : ℕ)
    (now : ℝ) : ℝ :=
  if c.problems.length = 0 then 0
  else
    let dated := c.problems.filterMap (·.tanggal)
    if dated.length = 0 then 5
    else (dated.map (recencyContribution now recencyDays)).sum / (dated.length : ℝ)

/-- `CalculateRPN` (rpn.go): `0` for an empty cluster, otherwise
`min((log10(n + 1) · 10 · fw + recency · rw) · 10, 100)`. -/
noncomputable def calculateRPN (c : Cluster) (cfg : RPNConfig) (now : ℝ) : ℝ :=
  if c.problems.length = 0 then 0
  else
    min ((Real.logb 10 ((c.problems.length : ℝ) + 1) * 10 * cfg.frequencyWeight +
      calculateRecencyScore c cfg.recencyDays now * cfg.recencyWeight) * 10) 100

/-- `SortClustersByRPN` (rpn.go): the descending stable bubble sort keyed
by RPN score. -/
noncomputable def sortClustersByRPN (l : List Cluster) : List Cluster :=
  bubbleSortGo (fun c => c.rpnScore) l

/-- The per-cluster mutation step of `GetTopProblemsWithStats`
(service.go): `SelectCentroid` then `CalculateRPN`, both writing into the
cluster. -/
noncomputable def annotateCluster (problems : List ProblemData) (now : ℝ)
    (cfg : RPNConfig) (c : Cluster) : Cluster :=
  let c1 : Cluster := ⟨c.problems,
    selectCentroidIdx (centroidSim (problems.map (·.text)) c.problems)
      c.problems.length, c.rpnScore⟩
  ⟨c1.problems, c1.centroidIdx, calculateRPN c1 cfg now⟩

/-- The annotated and RPN-sorted cluster list a ranking request builds
before truncation and conversion. -/
noncomputable def rankedClusters (problems : List ProblemData)
    (threshold now : ℝ) : List Cluster :=
  sortClustersByRPN
    ((clustersOf problems threshold).map (annotateCluster problems now defaultRPNConfig))

/-! ### Key-phrase summarization (trigram.go) -/

/-- The domain keyword-importance table of `GetClusterSummary`
(trigram.go).  Go stores `int` weights and multiplies them into
`float64` scores; since every score is a product of two small
non-negative integers it is represented exactly, and `ℕ` carries the
same values and the same ordering. -/
def importanceSummaryTable : List (Text × ℕ) :=
  ([("rusak", 10), ("pecah", 10), ("retak", 10), ("bocor", 10), ("patah", 10),
    ("bengkok", 10), ("kotor", 10), ("cacat", 10), ("gagal", 10), ("error", 10),
    ("salah", 10), ("keliru", 10), ("tidak", 8), ("kurang", 8), ("miring", 10),
    ("geser", 10), ("longgar", 10), ("beda", 8), ("berbeda", 8),
    ("material", 9), ("bahan", 9), ("kaca", 9), ("aluminium", 9), ("kayu", 9),
    ("plat", 9), ("besi", 9), ("stainless", 9), ("karet", 9), ("plastik", 9),
    ("cat", 9), ("finishing", 9), ("powder", 9), ("coating", 9), ("sealant", 9),
    ("pintu", 8), ("jendela", 8), ("frame", 8), ("panel", 8), ("handle", 8),
    ("kunci", 8), ("engsel", 8), ("rel", 8), ("roller", 8), ("glass", 8),
    ("profil", 8), ("aksesoris", 8), ("bracket", 8), ("corner", 8), ("gasket", 8),
    ("dimensi", 9), ("ukuran", 9), ("warna", 9), ("bentuk", 9), ("kualitas", 9),
    ("spec", 9), ("spesifikasi", 9), ("tolerance", 9), ("standar", 9), ("reject", 10),
    ("defect", 10), ("scratch", 10), ("dent", 10), ("baret", 10), ("penyok", 10),
    ("welding", 8), ("las", 8), ("cutting", 8), ("potong", 8), ("drilling", 8),
    ("bor", 8), ("assembly", 8), ("rakit", 8), ("packing", 8), ("kirim", 8),
    ("produksi", 8), ("proses", 7), ("mesin", 8), ("alat", 7), ("setting", 8)] :
    List (String × ℕ)).map fun p => (p.1.data, p.2)

/-- The importance of a word in `GetClusterSummary`: the table value when
present, else `3` for words longer than five runes, else `1`. -/
def importanceSummary (w : Text) : ℕ :=
  match importanceSummaryTable.lookup w with
  | some v => v
  | none => if 5 < w.length then 3 else 1

/-- The `importantWords` table of `ExtractKeyPhrase` (trigram.go): the
same entries as `GetClusterSummary`'s plus `lebih` at weight `6`. -/
def importanceKeyPhraseTable : List (Text × ℕ) :=
  importanceSummaryTable ++ [("lebih".data, 6)]

/-- The score of one keyword occurrence in `ExtractKeyPhrase`: the table
value when present, else `3` for words longer than five runes, `2` for
words longer than three runes, else `1`. -/
def importanceKeyPhrase (w : Text) : ℕ :=
  match importanceKeyPhraseTable.lookup w with
  | some v => v
  | none => if 5 < w.length then 3 else if 3 < w.length then 2 else 1

def joinSpaces (ws : List Text) : Text := List.intercalate [' '] ws

/-- The take-unique loop of `ExtractKeyPhrase`: walk the sorted words,
appending each unseen word while fewer than `m` have been taken. -/
def takeUniqueAux (m : ℕ) : List Text → List Text → List Text
  | acc, [] => acc.reverse
  | acc, w :: ws =>
    if !acc.contains w ∧ acc.length < m then takeUniqueAux m (w :: acc) ws
    else takeUniqueAux m acc ws

/-- `ExtractKeyPhrase` (trigram.go): score every keyword occurrence of
one text, bubble-sort descending by score (stable), join the first
`maxWords` distinct words with spaces; a `maxWords` of `0` defaults to
`5`, and a keyword-less text yields the empty string. -/
def extractKeyPhrase (t : Text) (maxWords0 : ℕ) : Text :=
  let maxWords := if maxWords0 = 0 then 5 else maxWords0
  let keywords := extractKeywords t
  if keywords.length = 0 then []
  else
    let sorted := bubbleSortGo Prod.snd (keywords.map fun w => (w, importanceKeyPhrase w))
    joinSpaces (takeUniqueAux maxWords [] (sorted.map Prod.fst))

/-- The `wordCounts` map of `GetClusterSummary`: in how many of the
cluster's descriptions a word occurs as a keyword (each description
counted once via the `seen` set). -/
def wordCountsIn (descs : List Text) (w : Text) : ℕ :=
  descs.countP fun d => (extractKeywords d).contains w

/-- The key set of that map, as a duplicate-free list. -/
def summaryKeys (descs : List Text) : List Text :=
  ((descs.map extractKeywords).flatten).dedup

/-- `GetClusterSummary` (trigram.go): score every distinct keyword by
`frequency · importance`, bubble-sort descending (stable over the order
`ord` in which this run's `range` enumerates the `wordCounts` map), join
the first `maxWords` words; falls back to `ExtractKeyPhrase` on the first
description when no word scored. -/
def getClusterSummary (ord : List Text → List Text) (descs : List Text)
    (maxWords : ℕ) : Text :=
  if descs.length = 0 then []
  else
    let scored := (ord (summaryKeys descs)).map fun w =>
      (w, wordCountsIn descs w * importanceSummary w)
    let result := ((bubbleSortGo Prod.snd scored).take maxWords).map Prod.fst
    if result.length = 0 then extractKeyPhrase (descs.headI) maxWords
    else joinSpaces result

/-- `GetClusterKeyPhrase` (cluster data-model file): summarize the
cluster's non-empty member texts. -/
def getClusterKeyPhrase (ord : List Text → List Text) (c : Cluster)
    (maxWords : ℕ) : Text :=
  if c.problems.length = 0 then []
  else getClusterSummary ord ((c.problems.map (·.text)).filter fun t => !t.isEmpty)
    maxWords

/-- `GetSampleIDs` (cluster data-model file): the first five member ids. -/
def getSampleIDs (c : Cluster) : List String := (c.problems.take 5).map (·.id)

/-- `GetMostCommonKategori` (cluster data-model file): tally the
non-empty categories and keep the first strictly larger count in the
order `ord` in which this run's `range` enumerates the tally map. -/
def mostCommonKategori (ord : List Text → List Text) (c : Cluster) : Text :=
  if c.problems.length = 0 then []
  else
    let keys := ((c.problems.map (·.kategori)).filter fun k => !k.isEmpty).dedup
    let counts : Text → ℕ := fun k =>
      ((c.problems.map (·.kategori)).filter fun k' => !k'.isEmpty).count k
    ((ord keys).foldl (fun acc k => if acc.2 < counts k then (k, counts k) else acc)
      (([] : Text), 0)).1

/-! ### The ranking service (service.go) -/

/-- `RankedProblem` (cluster data-model file).  `AlgorithmInfo` is a
formatted string of the vocabulary size and cluster size; the model
keeps the pair of numbers the format string renders. -/
structure RankedProblem where
  rank : ℕ
  description : Text
  frequency : ℕ
  rpnScore : ℝ
  kategori : Text
  sampleIds : List String
  algorithmInfo : ℕ × ℕ

/-- The Go map enumeration orders one run of the service happens to use:
the vocabulary order of `Fit`/`GetTopTerms`, and the per-map orders of
`GetClusterSummary`'s word tally and `GetMostCommonKategori`'s category
tally. -/
structure MapOrders where
  vocabOrd : List Text
  sumOrd : List Text → List Text
  katOrd : List Text → List Text

/-- The orders are duplicate-free listings of the respective key sets. -/
def validOrders (corpus : List Text) (ords : MapOrders) : Prop :=
  validEnum corpus ords.vocabOrd ∧ (∀ l, (ords.sumOrd l).Perm l) ∧
    ∀ l, (ords.katOrd l).Perm l

/-- `GetTopProblemsWithStats` (service.go), entered after the database
fetch (an external collaborator) has produced `problems`; `now` is the
evaluation time read inside `calculateRecencyScore`.  The service uses
threshold `0.15` and `DefaultRPNConfig`.  The only error return
propagates a fetch failure, which has already succeeded here, so the
result is always `.ok`; an empty corpus short-circuits to an empty list
and zero-valued stats. -/
noncomputable def getTopProblemsWithStats (problems : List ProblemData)
    (limit : ℕ) (ords : MapOrders) (now : ℝ) :
    Except String (List RankedProblem × ClusterStats) :=
  if problems.length = 0 then .ok ([], zeroStats)
  else
    let stats := statsOf problems 0.15 ords.vocabOrd
    let top := (rankedClusters problems 0.15 now).take limit
    .ok (top.mapIdx (fun i c =>
      ⟨i + 1, getClusterKeyPhrase ords.sumOrd c 4, c.problems.length, c.rpnScore,
        mostCommonKategori ords.katOrd c, getSampleIDs c,
        (stats.vocabularySize, c.problems.length)⟩), stats)

/-! ### Concrete inputs used by witnesses and counterexamples -/

def mkProblem (id : String) (text : String) : ProblemData :=
  ⟨id, text.data, none, "", "", [], ""⟩

/-- The three-report corpus of the specification's worked scenario. -/
def problems3 : List ProblemData :=
  [mkProblem "a" "kaca pecah saat packing",
   mkProblem "b" "kaca retak waktu packing",
   mkProblem "c" "warna cat berbeda"]

/-- A two-document corpus used by witnesses and by the determinism
counterexample: both documents share the keywords `kaca` and `packing`,
which therefore carry equal IDF values. -/
def corpusB : List Text := ["kaca packing rusak".data, "kaca packing bocor".data]

/-- The same corpus as report items. -/
def problemsB : List ProblemData :=
  [mkProblem "a" "kaca packing rusak", mkProblem "b" "kaca packing bocor"]

/-- Two enumeration orders of `corpusB`'s keyword map, differing only in
the relative position of the equal-IDF words `kaca` and `packing`. -/
def oB1 : List Text :=
  (["rusak", "kaca", "packing", "bocor"] : List String).map String.data

def oB2 : List Text :=
  (["rusak", "packing", "kaca", "bocor"] : List String).map String.data

/-- Map orders of two hypothetical runs over `problemsB`. -/
def mOrdB1 : MapOrders := ⟨oB1, fun l => l, fun l => l⟩

def mOrdB2 : MapOrders := ⟨oB2, fun l => l.reverse, fun l => l.reverse⟩

/-- The run orders a witness uses: the canonical key listings. -/
def canonOrders (corpus : List Text) : MapOrders :=
  ⟨allKeywords corpus, fun l => l, fun l => l⟩


/-! ### Claim-side formula definitions -/

/-- The RPN formula exactly as the specification words it: frequency
score `log10(memberCount + 1) · 10`, recency score the average
exponential-decay recency over members with dates (elapsed days clamped
below at `0`) or the default `5.0` when no member has a date, combined as
`min((frequencyScore · 0.6 + recencyScore · 0.4) · 10, 100)`.  Stated
from the spec, to be compared with `calculateRPN` from the source. -/
noncomputable def rpnSpec (c : Cluster) (now : ℝ) : ℝ :=
  let frequencyScore := Real.logb 10 ((c.problems.length : ℝ) + 1) * 10
  let dated := c.problems.filterMap (·.tanggal)
  let recencyScore :=
    if dated.length = 0 then (5 : ℝ)
    else (dated.map fun t => 10 * Real.exp (-(max (now - t) 0) / 90)).sum /
      (dated.length : ℝ)
  min ((frequencyScore * 0.6 + recencyScore * 0.4) * 10) 100

/-! ### Theorems -/

theorem clamp_eq_max (x : ℝ) : (if x < 0 then (0 : ℝ) else x) = max x 0 := by
  split
  · exact (max_eq_right (le_of_lt (by assumption))).symm
  · exact (max_eq_left (le_of_not_lt (by assumption))).symm

theorem recencyContribution_nonneg (now : ℝ) (d : ℕ) (t : ℝ) :
    0 ≤ recencyContribution now d t := by
  unfold recencyContribution
  positivity

theorem calculateRecencyScore_nonneg (c : Cluster) (d : ℕ) (now : ℝ) :
    0 ≤ calculateRecencyScore c d now := by
  unfold calculateRecencyScore
  split
  · exact le_refl 0
  · dsimp only
    split
    · norm_num
    · apply div_nonneg
      · apply List.sum_nonneg
        intro x hx
        obtain ⟨t, _, rfl⟩ := List.mem_map.mp hx
        exact recencyContribution_nonneg now d t
      · positivity

/-- C10: a cluster member whose date lies in the future relative to the
evaluation time has its elapsed-days value clamped to `0`, so it
contributes exactly `10` (the maximum) to the recency average. -/
theorem recencyContribution_future (now : ℝ) (d : ℕ) (t : ℝ) (h : now < t) :
    (if now - t < 0 then (0 : ℝ) else now - t) = 0 ∧
      recencyContribution now d t = 10 := by
  have hneg : now - t < 0 := sub_neg.mpr h
  refine ⟨if_pos hneg, ?_⟩
  unfold recencyContribution
  dsimp only
  rw [if_pos hneg]
  simp

theorem recencyContribution_future_witness :
    (if (0 : ℝ) - 1 < 0 then (0 : ℝ) else 0 - 1) = 0 ∧
      recencyContribution 0 90 1 = 10 :=
  recencyContribution_future 0 90 1 (by norm_num)

/-- C9: on an empty corpus the ranking returns the empty result list and
the zero-valued statistics, and signals no error. -/
theorem getTopProblemsWithStats_empty (limit : ℕ) (ords : MapOrders) (now : ℝ) :
    getTopProblemsWithStats [] limit ords now = .ok ([], zeroStats) ∧
      zeroStats = ⟨0, 0, 0, [], 0, 0, 0, 0⟩ := by
  constructor
  · simp [getTopProblemsWithStats]
  · rfl

/-- C4: for every non-empty cluster `calculateRPN` computes exactly the
specification's formula
`min((log10(n+1)·10 · 0.6 + recency · 0.4) · 10, 100)` with the recency
score averaging the exponential decay over dated members (default `5`),
and the result lies in `[0, 100]`. -/
theorem calculateRPN_spec_and_bounds (c : Cluster) (now : ℝ)
    (h : c.problems ≠ []) :
    calculateRPN c defaultRPNConfig now = rpnSpec c now ∧
      0 ≤ calculateRPN c defaultRPNConfig now ∧
      calculateRPN c defaultRPNConfig now ≤ 100 := by
  have hlen : c.problems.length ≠ 0 := by simpa using h
  have hrec : calculateRecencyScore c 90 now =
      (if (c.problems.filterMap (·.tanggal)).length = 0 then (5 : ℝ)
        else ((c.problems.filterMap (·.tanggal)).map
          fun t => 10 * Real.exp (-(max (now - t) 0) / 90)).sum /
          ((c.problems.filterMap (·.tanggal)).length : ℝ)) := by
    unfold calculateRecencyScore
    rw [if_neg hlen]
    dsimp only
    by_cases hd : (c.problems.filterMap (·.tanggal)).length = 0
    · rw [if_pos hd, if_pos hd]
    · rw [if_neg hd, if_neg hd]
      congr 1
      congr 1
      apply List.map_congr_left
      intro t _
      unfold recencyContribution
      dsimp only
      rw [clamp_eq_max]
      norm_num
  have hfreq : (0 : ℝ) ≤ Real.logb 10 ((c.problems.length : ℝ) + 1) :=
    Real.logb_nonneg (by norm_num) (by
      have : (1 : ℝ) ≤ (c.problems.length : ℝ) := by
        exact_mod_cast Nat.one_le_iff_ne_zero.mpr hlen
      linarith)
  have hrecnn : 0 ≤ calculateRecencyScore c 90 now :=
    calculateRecencyScore_nonneg c 90 now
  have heq : calculateRPN c defaultRPNConfig now = rpnSpec c now := by
    unfold calculateRPN rpnSpec defaultRPNConfig
    rw [if_neg hlen, hrec]
  refine ⟨heq, ?_, ?_⟩
  · unfold calculateRPN defaultRPNConfig
    rw [if_neg hlen]
    apply le_min _ (by norm_num)
    have : (0 : ℝ) ≤ Real.logb 10 ((c.problems.length : ℝ) + 1) * 10 * 0.6 +
        calculateRecencyScore c 90 now * 0.4 := by positivity
    linarith
  · unfold calculateRPN defaultRPNConfig
    rw [if_neg hlen]
    exact min_le_right _ _

theorem calculateRPN_spec_and_bounds_witness :
    calculateRPN ⟨[default], 0, 0⟩ defaultRPNConfig 0 =
        rpnSpec ⟨[default], 0, 0⟩ 0 ∧
      0 ≤ calculateRPN ⟨[default], 0, 0⟩ defaultRPNConfig 0 ∧
      calculateRPN ⟨[default], 0, 0⟩ defaultRPNConfig 0 ≤ 100 :=
  calculateRPN_spec_and_bounds ⟨[default], 0, 0⟩ 0 (by simp)

theorem calculateSimilarity_self (a : Finset Text) : calculateSimilarity a a = 1 := by
  unfold calculateSimilarity
  by_cases h : a.card = 0
  · rw [if_pos ⟨h, h⟩]
  · rw [if_neg (fun hh => h hh.1), if_neg (fun hh => h (hh.elim id id))]
    dsimp only
    rw [Finset.inter_self]
    have hu : a.card + a.card - a.card = a.card := by omega
    rw [hu, if_neg h, div_self (by exact_mod_cast h)]

/-- C7 counterexample: the one-space text is a non-empty input, yet its
trigram set is empty, because the text normalizes to the empty string. -/
theorem generateTrigrams_space_empty :
    ([' '] : Text) ≠ [] ∧ generateTrigrams [' '] = ∅ := by
  constructor
  · decide
  · decide

/-- C7 (amended): every input text whose normalized form is non-empty
has a non-empty trigram set, and the trigram self-similarity of every
non-empty text equals 1. -/
theorem generateTrigrams_nonempty_and_self_sim :
    (∀ t : Text, normalizeWhitespace (lowerText t) ≠ [] →
      (generateTrigrams t).Nonempty) ∧
      ∀ t : Text, t ≠ [] →
        calculateSimilarity (generateTrigrams t) (generateTrigrams t) = 1 := by
  constructor
  · intro t ht
    unfold generateTrigrams
    dsimp only
    split
    · rw [if_pos (by exact List.length_pos.mpr ht)]
      exact Finset.singleton_nonempty _
    · rename_i hlen
      push_neg at hlen
      have h2 : 0 < (normalizeWhitespace (lowerText t)).length - 2 := by omega
      refine ⟨(normalizeWhitespace (lowerText t)).take 3, ?_⟩
      rw [List.mem_toFinset]
      refine List.mem_map.mpr ⟨0, ?_, by simp⟩
      simpa using h2
  · intro t _
    exact calculateSimilarity_self _

theorem generateTrigrams_nonempty_and_self_sim_witness :
    (generateTrigrams "abc".data).Nonempty ∧
      calculateSimilarity (generateTrigrams "abc".data)
        (generateTrigrams "abc".data) = 1 :=
  ⟨generateTrigrams_nonempty_and_self_sim.1 _ (by decide),
   generateTrigrams_nonempty_and_self_sim.2 _ (by decide)⟩

theorem calculateSimilarity_comm (a b : Finset Text) :
    calculateSimilarity a b = calculateSimilarity b a := by
  unfold calculateSimilarity
  by_cases ha : a.card = 0 <;> by_cases hb : b.card = 0
  · rw [if_pos ⟨ha, hb⟩, if_pos ⟨hb, ha⟩]
  · rw [if_neg (fun h : a.card = 0 ∧ b.card = 0 => hb h.2),
      if_neg (fun h : b.card = 0 ∧ a.card = 0 => hb h.1),
      if_pos (Or.inl ha : a.card = 0 ∨ b.card = 0),
      if_pos (Or.inr ha : b.card = 0 ∨ a.card = 0)]
  · rw [if_neg (fun h : a.card = 0 ∧ b.card = 0 => ha h.1),
      if_neg (fun h : b.card = 0 ∧ a.card = 0 => ha h.2),
      if_pos (Or.inr hb : a.card = 0 ∨ b.card = 0),
      if_pos (Or.inl hb : b.card = 0 ∨ a.card = 0)]
  · rw [if_neg (fun h : a.card = 0 ∧ b.card = 0 => ha h.1),
      if_neg (fun h : b.card = 0 ∧ a.card = 0 => ha h.2),
      if_neg (fun h : a.card = 0 ∨ b.card = 0 => h.elim ha hb),
      if_neg (fun h : b.card = 0 ∨ a.card = 0 => h.elim hb ha)]
    dsimp only
    rw [Finset.inter_comm, Nat.add_comm a.card b.card]

theorem commonPrefixLen_comm : ∀ s t : Text, commonPrefixLen s t = commonPrefixLen t s
  | [], [] => rfl
  | [], _ :: _ => rfl
  | _ :: _, [] => rfl
  | a :: as, b :: bs => by
    unfold commonPrefixLen
    by_cases h : a = b
    · rw [if_pos h, if_pos h.symm, commonPrefixLen_comm as bs]
    · rw [if_neg h, if_neg (fun hh => h hh.symm)]

theorem maxList_cons (x : ℕ) (l : List ℕ) : maxList (x :: l) = max x (maxList l) := rfl

theorem maxList_map_zero {γ : Type*} (l : List γ) :
    maxList (l.map fun _ => 0) = 0 := by
  induction l with
  | nil => rfl
  | cons a l ih =>
    rw [List.map_cons, maxList_cons, ih]
    omega

theorem maxList_map_max {γ : Type*} (f g : γ → ℕ) (l : List γ) :
    maxList (l.map fun a => max (f a) (g a)) =
      max (maxList (l.map f)) (maxList (l.map g)) := by
  induction l with
  | nil => rfl
  | cons a l ih =>
    simp only [List.map_cons, maxList_cons, ih]
    exact max_max_max_comm _ _ _ _

theorem maxList_swap {γ δ : Type*} (f : γ → δ → ℕ) (l : List γ) (m : List δ) :
    maxList (l.map fun a => maxList (m.map fun b => f a b)) =
      maxList (m.map fun b => maxList (l.map fun a => f a b)) := by
  induction l with
  | nil =>
    simp only [List.map_nil]
    exact (maxList_map_zero m).symm
  | cons a l ih =>
    simp only [List.map_cons, maxList_cons, ih]
    rw [← maxList_map_max (fun b => f a b) (fun b => maxList (l.map fun a' => f a' b)) m]

theorem lcsLen_comm (s1 s2 : Text) : lcsLen s1 s2 = lcsLen s2 s1 := by
  unfold lcsLen
  rw [maxList_swap]
  congr 1
  apply List.map_congr_left
  intro t2 _
  congr 1
  apply List.map_congr_left
  intro t1 _
  exact commonPrefixLen_comm t1 t2

theorem calculateLCSSimilarity_comm (s1 s2 : Text) :
    calculateLCSSimilarity s1 s2 = calculateLCSSimilarity s2 s1 := by
  unfold calculateLCSSimilarity
  by_cases h1 : s1.length = 0 <;> by_cases h2 : s2.length = 0
  · rw [if_pos ⟨h1, h2⟩, if_pos ⟨h2, h1⟩]
  · rw [if_neg (fun h : s1.length = 0 ∧ s2.length = 0 => h2 h.2),
      if_neg (fun h : s2.length = 0 ∧ s1.length = 0 => h2 h.1),
      if_pos (Or.inl h1 : s1.length = 0 ∨ s2.length = 0),
      if_pos (Or.inr h1 : s2.length = 0 ∨ s1.length = 0)]
  · rw [if_neg (fun h : s1.length = 0 ∧ s2.length = 0 => h1 h.1),
      if_neg (fun h : s2.length = 0 ∧ s1.length = 0 => h1 h.2),
      if_pos (Or.inr h2 : s1.length = 0 ∨ s2.length = 0),
      if_pos (Or.inl h2 : s2.length = 0 ∨ s1.length = 0)]
  · rw [if_neg (fun h : s1.length = 0 ∧ s2.length = 0 => h1 h.1),
      if_neg (fun h : s2.length = 0 ∧ s1.length = 0 => h1 h.2),
      if_neg (fun h : s1.length = 0 ∨ s2.length = 0 => h.elim h1 h2),
      if_neg (fun h : s2.length = 0 ∨ s1.length = 0 => h.elim h2 h1),
      lcsLen_comm, max_comm ((s1.length : ℚ)) ((s2.length : ℚ))]

theorem cosineSimilarity_comm (a b : TFIDFVector) :
    cosineSimilarity a b = cosineSimilarity b a := by
  unfold cosineSimilarity
  by_cases h : a.norm = 0 ∨ b.norm = 0
  · rw [if_pos h, if_pos h.symm]
  · rw [if_neg h, if_neg (fun hh => h hh.symm)]
    unfold dotProduct
    rw [Finset.inter_comm, mul_comm a.norm b.norm]
    congr 1
    apply Finset.sum_congr rfl
    intro w _
    ring

/-- C8: the trigram Jaccard similarity, the LCS similarity and the
TF-IDF cosine similarity are each symmetric in their two arguments. -/
theorem similarity_symm :
    (∀ a b : Finset Text, calculateSimilarity a b = calculateSimilarity b a) ∧
      (∀ s1 s2 : Text, calculateLCSSimilarity s1 s2 = calculateLCSSimilarity s2 s1) ∧
      ∀ u v : TFIDFVector, cosineSimilarity u v = cosineSimilarity v u :=
  ⟨calculateSimilarity_comm, calculateLCSSimilarity_comm, cosineSimilarity_comm⟩

theorem mem_allKeywords_of_docFreq_pos {corpus : List Text} {w : Text}
    (h : 0 < docFreq corpus w) : w ∈ allKeywords corpus := by
  unfold docFreq at h
  rw [List.countP_pos_iff] at h
  obtain ⟨d, hd, hw⟩ := h
  unfold allKeywords
  rw [List.mem_dedup, List.mem_flatten]
  exact ⟨extractKeywords d, List.mem_map_of_mem _ hd, by simpa using hw⟩

theorem getD_map_lt {γ δ : Type*} (f : γ → δ) (l : List γ) (d : γ) (d' : δ)
    (i : ℕ) (hi : i < l.length) : (l.map f).getD i d' = f (l.getD i d) := by
  rw [List.getD_eq_getElem _ _ (by simpa using hi), List.getD_eq_getElem _ _ hi,
    List.getElem_map]

theorem docFreq_le_length (corpus : List Text) (w : Text) :
    docFreq corpus w ≤ corpus.length :=
  List.countP_le_length _

/-- C6: after fitting, a word is in the vocabulary iff its document
frequency over the corpus is at least 2; the vocabulary list is
duplicate-free, so each word receives one stable index (its position);
and the IDF array holds `ln(N / (1 + df)) + 1` at every index, a
strictly positive value. -/
theorem fit_vocabulary_and_idf (corpus : List Text) (o : List Text)
    (h : validEnum corpus o) :
    (∀ w, w ∈ vocabListOf corpus o ↔ 2 ≤ docFreq corpus w) ∧
      (vocabListOf corpus o).Nodup ∧
      ∀ i, i < (vocabListOf corpus o).length →
        (idfArrOf corpus o).getD i 0 =
            Real.log ((corpus.length : ℝ) /
              (1 + (docFreq corpus ((vocabListOf corpus o).getD i []) : ℝ))) + 1 ∧
          0 < (idfArrOf corpus o).getD i 0 := by
  have hmem : ∀ w, w ∈ vocabListOf corpus o ↔ 2 ≤ docFreq corpus w := by
    intro w
    unfold vocabListOf
    rw [List.mem_filter]
    constructor
    · intro hw
      simpa using hw.2
    · intro hw
      exact ⟨h.mem_iff.mpr (mem_allKeywords_of_docFreq_pos (by omega)), by simpa using hw⟩
  have hnodup : (vocabListOf corpus o).Nodup :=
    (h.nodup_iff.mpr (List.nodup_dedup _)).filter _
  refine ⟨hmem, hnodup, ?_⟩
  intro i hi
  have hw : (vocabListOf corpus o).getD i [] ∈ vocabListOf corpus o := by
    rw [List.getD_eq_getElem _ _ hi]
    exact List.getElem_mem _
  have hdf : 2 ≤ docFreq corpus ((vocabListOf corpus o).getD i []) := (hmem _).mp hw
  have hdfN : docFreq corpus ((vocabListOf corpus o).getD i []) ≤ corpus.length :=
    docFreq_le_length corpus _
  have hN : 2 ≤ corpus.length := le_trans hdf hdfN
  have harr : (idfArrOf corpus o).getD i 0 =
      idfW corpus ((vocabListOf corpus o).getD i []) :=
    getD_map_lt _ _ [] 0 i hi
  rw [harr]
  unfold idfW
  refine ⟨rfl, ?_⟩
  have hdfR : (2 : ℝ) ≤ (docFreq corpus ((vocabListOf corpus o).getD i []) : ℝ) := by
    exact_mod_cast hdf
  have hNR : (docFreq corpus ((vocabListOf corpus o).getD i []) : ℝ) ≤
      (corpus.length : ℝ) := by exact_mod_cast hdfN
  have hN2 : (2 : ℝ) ≤ (corpus.length : ℝ) := by exact_mod_cast hN
  have hx : (0 : ℝ) < (corpus.length : ℝ) /
      (1 + (docFreq corpus ((vocabListOf corpus o).getD i []) : ℝ)) :=
    div_pos (by linarith) (by linarith)
  have he : Real.exp (-1) < 1 / 2 := by
    rw [Real.exp_neg]
    have h2 : (2 : ℝ) < Real.exp 1 := lt_trans (by norm_num) Real.exp_one_gt_d9
    rw [show (1 : ℝ) / 2 = 2⁻¹ by norm_num]
    exact inv_strictAnti₀ (by norm_num) h2
  have hge : (1 : ℝ) / 2 ≤ (corpus.length : ℝ) /
      (1 + (docFreq corpus ((vocabListOf corpus o).getD i []) : ℝ)) := by
    rw [div_le_div_iff₀ (by norm_num) (by linarith)]
    linarith
  have hlog : (-1 : ℝ) < Real.log ((corpus.length : ℝ) /
      (1 + (docFreq corpus ((vocabListOf corpus o).getD i []) : ℝ))) :=
    (Real.lt_log_iff_exp_lt hx).mpr (by linarith)
  linarith

theorem fit_vocabulary_and_idf_witness :
    validEnum corpusB (allKeywords corpusB) ∧
      ("kaca".data ∈ vocabListOf corpusB (allKeywords corpusB) ↔
        2 ≤ docFreq corpusB "kaca".data) :=
  ⟨List.Perm.refl _,
    (fit_vocabulary_and_idf corpusB (allKeywords corpusB) (List.Perm.refl _)).1 _⟩

theorem greedyCluster_nil (sim : ℕ → ℕ → ℝ) (θ : ℝ) :
    greedyCluster sim θ [] = [] := by
  rw [greedyCluster]

theorem greedyCluster_cons (sim : ℕ → ℕ → ℝ) (θ : ℝ) (i : ℕ) (rest : List ℕ) :
    greedyCluster sim θ (i :: rest) =
      (i :: rest.filter fun j => decide (θ ≤ sim i j)) ::
        greedyCluster sim θ (rest.filter fun j => !decide (θ ≤ sim i j)) := by
  rw [greedyCluster]

theorem greedyCluster_flatten_perm (sim : ℕ → ℕ → ℝ) (θ : ℝ) (l : List ℕ) :
    (greedyCluster sim θ l).flatten.Perm l := by
  suffices h : ∀ n (l : List ℕ), l.length = n →
      (greedyCluster sim θ l).flatten.Perm l from h _ l rfl
  intro n
  induction n using Nat.strong_induction_on with
  | _ n ih =>
  intro l hn
  match l with
  | [] => simp [greedyCluster_nil]
  | i :: rest =>
    rw [greedyCluster_cons, List.flatten_cons, List.cons_append]
    refine List.Perm.cons i ?_
    have hlt : (rest.filter fun j => !decide (θ ≤ sim i j)).length < n := by
      subst hn
      exact Nat.lt_succ_of_le (List.length_filter_le _ _)
    exact (List.Perm.append_left (rest.filter fun j => decide (θ ≤ sim i j))
      (ih _ hlt _ rfl)).trans (List.filter_append_perm _ _)

theorem greedyCluster_ne_nil (sim : ℕ → ℕ → ℝ) (θ : ℝ) (l : List ℕ) :
    ∀ c ∈ greedyCluster sim θ l, c ≠ [] := by
  suffices h : ∀ n (l : List ℕ), l.length = n →
      ∀ c ∈ greedyCluster sim θ l, c ≠ [] from h _ l rfl
  intro n
  induction n using Nat.strong_induction_on with
  | _ n ih =>
  intro l hn
  match l with
  | [] => simp [greedyCluster_nil]
  | i :: rest =>
    rw [greedyCluster_cons]
    intro c hc
    rcases List.mem_cons.mp hc with h | h
    · subst h
      exact List.cons_ne_nil _ _
    · have hlt : (rest.filter fun j => !decide (θ ≤ sim i j)).length < n := by
        subst hn
        exact Nat.lt_succ_of_le (List.length_filter_le _ _)
      exact ih _ hlt _ rfl c h

theorem countP_mem_of_count_flatten_one (cs : List (List ℕ)) (i : ℕ)
    (h : (cs.map fun c => c.count i).sum = 1) :
    cs.countP (fun c => decide (i ∈ c)) = 1 := by
  induction cs with
  | nil => simp at h
  | cons c cs ih =>
    rw [List.map_cons, List.sum_cons] at h
    rw [List.countP_cons]
    by_cases hc : i ∈ c
    · have h1 : 1 ≤ c.count i := List.one_le_count_iff.mpr hc
      have hcs : (cs.map fun c => c.count i).sum = 0 := by omega
      have hrest : cs.countP (fun c => decide (i ∈ c)) = 0 := by
        rw [List.countP_eq_zero]
        intro c' hc'
        have hz : c'.count i = 0 := by
          have := (List.sum_eq_zero_iff).mp hcs (c'.count i)
            (List.mem_map.mpr ⟨c', hc', rfl⟩)
          exact this
        simpa using List.count_eq_zero.mp hz
      simp [hrest, hc]
    · have hz : c.count i = 0 := List.count_eq_zero.mpr hc
      rw [ih (by omega)]
      simp [hc]

/-- C1: for every non-empty corpus and every threshold, the greedy
clusterer partitions the input: the concatenation of the index clusters
is a permutation of all item indices, no cluster is empty, every index
lies in exactly one cluster, the cluster sizes sum to the corpus size,
and the concatenated member lists are a permutation of the corpus. -/
theorem clusterer_partition (problems : List ProblemData) (θ : ℝ)
    (h : problems ≠ []) :
    (clusterIndices problems θ).flatten.Perm (List.range problems.length) ∧
      (∀ c ∈ clusterIndices problems θ, c ≠ []) ∧
      (∀ i, i < problems.length →
        (clusterIndices problems θ).countP (fun c => decide (i ∈ c)) = 1) ∧
      ((clustersOf problems θ).map fun c => c.problems.length).sum =
        problems.length ∧
      ((clustersOf problems θ).map fun c => c.problems).flatten.Perm problems := by
  have hperm : (clusterIndices problems θ).flatten.Perm
      (List.range problems.length) := greedyCluster_flatten_perm _ _ _
  refine ⟨hperm, greedyCluster_ne_nil _ _ _, ?_, ?_, ?_⟩
  · intro i hi
    apply countP_mem_of_count_flatten_one
    rw [← List.count_flatten]
    rw [hperm.count_eq]
    exact List.count_eq_one_of_mem (List.nodup_range _) (List.mem_range.mpr hi)
  · unfold clustersOf
    rw [List.map_map]
    have hc : ((fun c : Cluster => c.problems.length) ∘
        fun is : List ℕ => Cluster.mk (is.map fun i => problems.getD i default) 0 0) =
        fun is : List ℕ => is.length := by
      funext is
      simp
    rw [hc, ← List.length_flatten, hperm.length_eq, List.length_range]
  · unfold clustersOf
    rw [List.map_map]
    have hc : ((fun c : Cluster => c.problems) ∘
        fun is : List ℕ => Cluster.mk (is.map fun i => problems.getD i default) 0 0) =
        fun is : List ℕ => is.map fun i => problems.getD i default := by
      funext is
      rfl
    rw [hc, ← List.map_flatten]
    have := hperm.map fun i => problems.getD i default
    refine this.trans ?_
    rw [show (List.range problems.length).map (fun i => problems.getD i default) =
      problems from ?_]
    apply List.ext_getElem
    · simp
    · intro i h1 h2
      rw [List.getElem_map, List.getElem_range, List.getD_eq_getElem _ _ h2]

theorem clusterer_partition_witness :
    problems3 ≠ [] ∧
      (clusterIndices problems3 0.15).flatten.Perm (List.range problems3.length) :=
  ⟨by simp [problems3], (clusterer_partition problems3 0.15 (by simp [problems3])).1⟩

section BubbleSort

variable {α' : Type*} {β' : Type*} [LinearOrder β'] (key : α' → β')

theorem bubblePassN_perm : ∀ (n : ℕ) (l : List α'),
    (bubblePassN key n l).Perm l := by
  intro n
  induction n with
  | zero =>
    intro l
    cases l <;> simp [bubblePassN]
  | succ n ih =>
    intro l
    match l with
    | [] => simp [bubblePassN]
    | [a] => simp [bubblePassN]
    | a :: b :: rest =>
      rw [bubblePassN]
      split
      · exact ((ih (a :: rest)).cons b).trans (List.Perm.swap a b rest)
      · exact (ih (b :: rest)).cons a

theorem bubblePassN_filter_key (s : β') : ∀ (n : ℕ) (l : List α'),
    (bubblePassN key n l).filter (fun x => decide (key x = s)) =
      l.filter (fun x => decide (key x = s)) := by
  intro n
  induction n with
  | zero =>
    intro l
    cases l <;> simp [bubblePassN]
  | succ n ih =>
    intro l
    match l with
    | [] => simp [bubblePassN]
    | [a] => simp [bubblePassN]
    | a :: b :: rest =>
      rw [bubblePassN]
      split
      · rename_i hlt
        rw [List.filter_cons, ih (a :: rest)]
        by_cases hb : key b = s
        · by_cases ha : key a = s
          · exact absurd (ha.trans hb.symm) (ne_of_lt hlt)
          · simp [List.filter_cons, ha, hb]
        · by_cases ha : key a = s
          · simp [List.filter_cons, ha, hb]
          · simp [List.filter_cons, ha, hb]
      · simp only [List.filter_cons, ih]

theorem bubblePassN_append : ∀ (n : ℕ) (front tail : List α'),
    front.length = n + 1 →
    bubblePassN key n (front ++ tail) = bubblePassN key n front ++ tail := by
  intro n
  induction n with
  | zero =>
    intro front tail hf
    match front, hf with
    | [a], _ => simp [bubblePassN]
  | succ n ih =>
    intro front tail hf
    match front, hf with
    | a :: b :: front', hf =>
      have h1 : (a :: front').length = n + 1 := by simpa using hf
      have h2 : (b :: front').length = n + 1 := by simpa using hf
      rw [List.cons_append, List.cons_append, bubblePassN, bubblePassN]
      split
      · rw [show a :: (front' ++ tail) = (a :: front') ++ tail from rfl,
          ih _ _ h1, List.cons_append]
      · rw [show b :: (front' ++ tail) = (b :: front') ++ tail from rfl,
          ih _ _ h2, List.cons_append]

theorem bubblePassN_last_min : ∀ (n : ℕ) (l : List α'), l.length = n + 1 →
    ∃ init m, bubblePassN key n l = init ++ [m] ∧ ∀ x ∈ l, key m ≤ key x := by
  intro n
  induction n with
  | zero =>
    intro l hl
    match l, hl with
    | [a], _ =>
      refine ⟨[], a, by simp [bubblePassN], ?_⟩
      intro x hx
      rw [List.mem_singleton.mp hx]
  | succ n ih =>
    intro l hl
    match l, hl with
    | a :: b :: rest, hl =>
      rw [bubblePassN]
      by_cases hab : key a < key b
      · rw [if_pos hab]
        obtain ⟨init, m, heq, hmin⟩ := ih (a :: rest) (by simpa using hl)
        refine ⟨b :: init, m, by rw [heq, List.cons_append], ?_⟩
        intro x hx
        rcases List.mem_cons.mp hx with rfl | hx'
        · exact hmin x (List.mem_cons_self _ _)
        rcases List.mem_cons.mp hx' with rfl | hx''
        · exact le_of_lt (lt_of_le_of_lt (hmin a (List.mem_cons_self _ _)) hab)
        · exact hmin x (List.mem_cons_of_mem _ hx'')
      · rw [if_neg hab]
        obtain ⟨init, m, heq, hmin⟩ := ih (b :: rest) (by simpa using hl)
        refine ⟨a :: init, m, by rw [heq, List.cons_append], ?_⟩
        intro x hx
        rcases List.mem_cons.mp hx with rfl | hx'
        · exact le_trans (hmin b (List.mem_cons_self _ _)) (le_of_not_lt hab)
        · exact hmin x hx'

theorem bubbleSweeps_sorted : ∀ (k : ℕ) (front tail : List α'),
    front.length = k + 1 →
    tail.Pairwise (fun x y => key y ≤ key x) →
    (∀ x ∈ front, ∀ y ∈ tail, key y ≤ key x) →
    (bubbleSweeps key k (front ++ tail)).Pairwise (fun x y => key y ≤ key x) := by
  intro k
  induction k with
  | zero =>
    intro front tail hf htail hdom
    match front, hf with
    | [a], _ =>
      rw [bubbleSweeps]
      exact List.pairwise_cons.mpr ⟨fun y hy => hdom a (by simp) y hy, htail⟩
  | succ k ih =>
    intro front tail hf htail hdom
    rw [bubbleSweeps, bubblePassN_append key (k + 1) front tail hf]
    obtain ⟨init, m, heq, hmin⟩ := bubblePassN_last_min key (k + 1) front hf
    have hp := bubblePassN_perm key (k + 1) front
    rw [heq] at hp
    rw [heq, List.append_assoc]
    apply ih init (m :: tail) ?_ ?_ ?_
    · have hlen : init.length + 1 = k + 2 := by simpa using hp.length_eq.trans hf
      omega
    · refine List.pairwise_cons.mpr ⟨?_, htail⟩
      intro y hy
      have hm : m ∈ front := hp.mem_iff.mp (by simp)
      exact hdom m hm y hy
    · intro x hx y hy
      have hxfront : x ∈ front := hp.mem_iff.mp (by simp [hx])
      rcases List.mem_cons.mp hy with rfl | hy'
      · exact hmin x hxfront
      · exact hdom x hxfront y hy'

theorem bubbleSweeps_perm : ∀ (k : ℕ) (l : List α'),
    (bubbleSweeps key k l).Perm l := by
  intro k
  induction k with
  | zero => intro l; rw [bubbleSweeps]
  | succ k ih =>
    intro l
    rw [bubbleSweeps]
    exact (ih _).trans (bubblePassN_perm key (k + 1) l)

theorem bubbleSweeps_filter_key (s : β') : ∀ (k : ℕ) (l : List α'),
    (bubbleSweeps key k l).filter (fun x => decide (key x = s)) =
      l.filter (fun x => decide (key x = s)) := by
  intro k
  induction k with
  | zero => intro l; rw [bubbleSweeps]
  | succ k ih =>
    intro l
    rw [bubbleSweeps, ih _, bubblePassN_filter_key key s (k + 1) l]

theorem bubbleSortGo_perm (l : List α') : (bubbleSortGo key l).Perm l :=
  bubbleSweeps_perm key _ l

theorem bubbleSortGo_sorted (l : List α') :
    (bubbleSortGo key l).Pairwise (fun x y => key y ≤ key x) := by
  match l with
  | [] => simp [bubbleSortGo, bubbleSweeps]
  | a :: l' =>
    unfold bubbleSortGo
    have hlen : (a :: l').length - 1 = l'.length := by simp
    rw [hlen]
    have h := bubbleSweeps_sorted key l'.length (a :: l') [] (by simp)
      List.Pairwise.nil (by simp)
    simpa using h

theorem bubbleSortGo_filter_key (s : β') (l : List α') :
    (bubbleSortGo key l).filter (fun x => decide (key x = s)) =
      l.filter (fun x => decide (key x = s)) :=
  bubbleSweeps_filter_key key s _ l

end BubbleSort

/-- C5: `SortClustersByRPN` produces a permutation of its input that is
non-increasing in RPN score, and it is stable: for every score value,
the clusters carrying exactly that score appear in the same relative
order as in the input. -/
theorem sortClustersByRPN_correct (l : List Cluster) :
    (sortClustersByRPN l).Perm l ∧
      (sortClustersByRPN l).Pairwise (fun c d => d.rpnScore ≤ c.rpnScore) ∧
      ∀ s : ℝ, (sortClustersByRPN l).filter (fun c => decide (c.rpnScore = s)) =
        l.filter (fun c => decide (c.rpnScore = s)) :=
  ⟨bubbleSortGo_perm _ l, bubbleSortGo_sorted _ l,
    fun s => bubbleSortGo_filter_key _ s l⟩

theorem idfW_corpusB_kaca_packing :
    idfW corpusB "kaca".data = idfW corpusB "packing".data := by
  unfold idfW
  rw [show docFreq corpusB "kaca".data = 2 from by decide,
    show docFreq corpusB "packing".data = 2 from by decide]

theorem bubbleSortGo_pair {γ δ : Type*} [LinearOrder δ] (key : γ → δ) (a b : γ) :
    bubbleSortGo key [a, b] = if key a < key b then [b, a] else [a, b] := by
  unfold bubbleSortGo
  rw [show ([a, b] : List γ).length - 1 = 1 from rfl]
  rw [bubbleSweeps, bubbleSweeps, bubblePassN]
  split <;> simp [bubblePassN]

theorem getTopTerms_oB1 :
    getTopTerms corpusB oB1 10 = ["kaca".data, "packing".data] := by
  unfold getTopTerms
  rw [show vocabListOf corpusB oB1 = ["kaca".data, "packing".data] from by decide]
  rw [bubbleSortGo_pair]
  rw [if_neg (by rw [idfW_corpusB_kaca_packing]; exact lt_irrefl _)]
  rfl

theorem getTopTerms_oB2 :
    getTopTerms corpusB oB2 10 = ["packing".data, "kaca".data] := by
  unfold getTopTerms
  rw [show vocabListOf corpusB oB2 = ["packing".data, "kaca".data] from by decide]
  rw [bubbleSortGo_pair]
  rw [if_neg (by rw [idfW_corpusB_kaca_packing]; exact lt_irrefl _)]
  rfl

/-- C2 counterexample: over the same two-document corpus, with identical
filters and evaluation time, two runs that only differ in the order in
which Go's `range` happens to enumerate the vocabulary map and the word
tally map produce different outputs: the stats' top-terms list comes out
as `kaca packing` versus `packing kaca` (equal IDF values, stable sort),
and the key-phrase summary of a cluster comes out as `kaca warna` versus
`warna kaca` (equal scores).  The pipeline output is therefore not a
function of the corpus and filters alone. -/
theorem getTopProblems_order_dependent :
    validOrders (problemsB.map (·.text)) mOrdB1 ∧
      validOrders (problemsB.map (·.text)) mOrdB2 ∧
      getTopProblemsWithStats problemsB 10 mOrdB1 0 ≠
        getTopProblemsWithStats problemsB 10 mOrdB2 0 ∧
      getClusterSummary mOrdB1.sumOrd ["kaca warna".data] 4 ≠
        getClusterSummary mOrdB2.sumOrd ["kaca warna".data] 4 := by
  have e1 : (match getTopProblemsWithStats problemsB 10 mOrdB1 0 with
      | .ok p => p.2.topTerms
      | .error _ => []) = ["kaca".data, "packing".data] := by
    unfold getTopProblemsWithStats
    rw [if_neg (by decide : ¬problemsB.length = 0)]
    dsimp only
    unfold statsOf
    rw [if_neg (by decide : ¬problemsB.length = 0)]
    dsimp only
    rw [show problemsB.map (·.text) = corpusB from by decide,
      show mOrdB1.vocabOrd = oB1 from rfl]
    exact getTopTerms_oB1
  have e2 : (match getTopProblemsWithStats problemsB 10 mOrdB2 0 with
      | .ok p => p.2.topTerms
      | .error _ => []) = ["packing".data, "kaca".data] := by
    unfold getTopProblemsWithStats
    rw [if_neg (by decide : ¬problemsB.length = 0)]
    dsimp only
    unfold statsOf
    rw [if_neg (by decide : ¬problemsB.length = 0)]
    dsimp only
    rw [show problemsB.map (·.text) = corpusB from by decide,
      show mOrdB2.vocabOrd = oB2 from rfl]
    exact getTopTerms_oB2
  refine ⟨⟨by unfold validEnum; decide, fun l => List.Perm.refl l, fun l => List.Perm.refl l⟩,
    ⟨by unfold validEnum; decide, fun l => List.reverse_perm l, fun l => List.reverse_perm l⟩,
    ?_, by decide⟩
  intro h
  have hp := congrArg (fun r : Except String (List RankedProblem × ClusterStats) =>
    match r with
    | .ok p => p.2.topTerms
    | .error _ => []) h
  exact (by decide : (["kaca".data, "packing".data] : List Text) ≠
    ["packing".data, "kaca".data]) (e1.symm.trans (hp.trans e2))

theorem vocabListOf_length_eq (corpus : List Text) {o1 o2 : List Text}
    (h1 : validEnum corpus o1) (h2 : validEnum corpus o2) :
    (vocabListOf corpus o1).length = (vocabListOf corpus o2).length :=
  ((h1.trans h2.symm).filter _).length_eq

theorem statsOf_vocabularySize_eq (problems : List ProblemData) (θ : ℝ)
    {o1 o2 : List Text} (h1 : validEnum (problems.map (·.text)) o1)
    (h2 : validEnum (problems.map (·.text)) o2) :
    (statsOf problems θ o1).vocabularySize = (statsOf problems θ o2).vocabularySize := by
  unfold statsOf
  by_cases hp : problems.length = 0
  · rw [if_pos hp, if_pos hp]
  · rw [if_neg hp, if_neg hp]
    exact vocabListOf_length_eq _ h1 h2

theorem statsOf_indep (problems : List ProblemData) (θ : ℝ) (o1 o2 : List Text) :
    (statsOf problems θ o1).totalProblems = (statsOf problems θ o2).totalProblems ∧
      (statsOf problems θ o1).clusterCount = (statsOf problems θ o2).clusterCount ∧
      (statsOf problems θ o1).threshold = (statsOf problems θ o2).threshold ∧
      (statsOf problems θ o1).weightTrigram = (statsOf problems θ o2).weightTrigram ∧
      (statsOf problems θ o1).weightLCS = (statsOf problems θ o2).weightLCS ∧
      (statsOf problems θ o1).weightTFIDF = (statsOf problems θ o2).weightTFIDF := by
  unfold statsOf
  by_cases hp : problems.length = 0 <;> simp [hp]

theorem map_mapIdx_eq {γ δ ε : Type*} (l : List γ) (f1 f2 : ℕ → γ → δ) (g : δ → ε)
    (h : ∀ i a, g (f1 i a) = g (f2 i a)) :
    (l.mapIdx f1).map g = (l.mapIdx f2).map g := by
  apply List.ext_getElem
  · simp
  · intro i h1 h2
    simp only [List.getElem_map, List.getElem_mapIdx]
    exact h i _

/-- C2 (amended): with the evaluation time fixed, two runs of the
ranking over the identical corpus and filters — differing only in the
enumeration orders of the Go maps the run iterates — build the same
sorted annotated cluster list (same membership, same centroid choice,
same ordering), and their outputs agree on rank, frequency, RPN score,
sample ids, algorithm info and every statistic except the top-terms
list; only the key-phrase description, the category pick and the
top-terms order may differ, on score ties. -/
theorem rankTopProblems_deterministic (problems : List ProblemData)
    (limit : ℕ) (now : ℝ) (m1 m2 : MapOrders)
    (h1 : validOrders (problems.map (·.text)) m1)
    (h2 : validOrders (problems.map (·.text)) m2) :
    (getTopProblemsWithStats problems limit m1 now).map
        (fun p => (p.1.map fun r =>
            (r.rank, r.frequency, r.rpnScore, r.sampleIds, r.algorithmInfo),
          p.2.totalProblems, p.2.vocabularySize, p.2.clusterCount,
          p.2.threshold, p.2.weightTrigram, p.2.weightLCS, p.2.weightTFIDF)) =
      (getTopProblemsWithStats problems limit m2 now).map
        (fun p => (p.1.map fun r =>
            (r.rank, r.frequency, r.rpnScore, r.sampleIds, r.algorithmInfo),
          p.2.totalProblems, p.2.vocabularySize, p.2.clusterCount,
          p.2.threshold, p.2.weightTrigram, p.2.weightLCS, p.2.weightTFIDF)) := by
  by_cases hp : problems.length = 0
  · unfold getTopProblemsWithStats
    rw [if_pos hp, if_pos hp]
  · obtain ⟨hA, hB, hC, hD, hE, hF⟩ := statsOf_indep problems 0.15 m1.vocabOrd m2.vocabOrd
    have hvs := statsOf_vocabularySize_eq problems 0.15 h1.1 h2.1
    unfold getTopProblemsWithStats
    rw [if_neg hp, if_neg hp]
    dsimp only
    simp only [Except.map]
    refine congrArg Except.ok ?_
    simp only [Prod.mk.injEq]
    refine ⟨?_, hA, hvs, hB, hC, hD, hE, hF⟩
    apply map_mapIdx_eq
    intro i c
    dsimp only
    rw [hvs]

theorem rankTopProblems_deterministic_witness :
    validOrders (problems3.map (·.text)) (canonOrders (problems3.map (·.text))) ∧
      (getTopProblemsWithStats problems3 10 (canonOrders (problems3.map (·.text))) 0).map
          (fun p => (p.1.map fun r =>
              (r.rank, r.frequency, r.rpnScore, r.sampleIds, r.algorithmInfo),
            p.2.totalProblems, p.2.vocabularySize, p.2.clusterCount,
            p.2.threshold, p.2.weightTrigram, p.2.weightLCS, p.2.weightTFIDF)) =
        (getTopProblemsWithStats problems3 10 (canonOrders (problems3.map (·.text))) 0).map
          (fun p => (p.1.map fun r =>
              (r.rank, r.frequency, r.rpnScore, r.sampleIds, r.algorithmInfo),
            p.2.totalProblems, p.2.vocabularySize, p.2.clusterCount,
            p.2.threshold, p.2.weightTrigram, p.2.weightLCS, p.2.weightTFIDF)) :=
  ⟨⟨List.Perm.refl _, fun l => List.Perm.refl l, fun l => List.Perm.refl l⟩,
    rankTopProblems_deterministic problems3 10 0 _ _
      ⟨List.Perm.refl _, fun l => List.Perm.refl l, fun l => List.Perm.refl l⟩
      ⟨List.Perm.refl _, fun l => List.Perm.refl l, fun l => List.Perm.refl l⟩⟩

theorem calculateSimilarity_eval {a b : Finset Text} {ca cb ci : ℕ}
    (ha : a.card = ca) (hb : b.card = cb) (hi : (a ∩ b).card = ci)
    (hca : ¬ca = 0) (hcb : ¬cb = 0) (hu : ¬ca + cb - ci = 0) :
    calculateSimilarity a b = (ci : ℚ) / ((ca + cb - ci : ℕ) : ℚ) := by
  unfold calculateSimilarity
  rw [if_neg (fun h : a.card = 0 ∧ b.card = 0 => hca (ha.symm.trans h.1)),
    if_neg (fun h : a.card = 0 ∨ b.card = 0 =>
      h.elim (fun hh => hca (ha.symm.trans hh)) (fun hh => hcb (hb.symm.trans hh)))]
  dsimp only
  rw [ha, hb, hi, if_neg hu]

theorem calculateLCSSimilarity_eval {s1 s2 : Text} {n1 n2 m : ℕ}
    (h1 : s1.length = n1) (h2 : s2.length = n2) (hl : lcsLen s1 s2 = m)
    (hn1 : ¬n1 = 0) (hn2 : ¬n2 = 0) :
    calculateLCSSimilarity s1 s2 = (m : ℚ) / ((max n1 n2 : ℕ) : ℚ) := by
  unfold calculateLCSSimilarity
  rw [if_neg (fun h : s1.length = 0 ∧ s2.length = 0 => hn1 (h1.symm.trans h.1)),
    if_neg (fun h : s1.length = 0 ∨ s2.length = 0 =>
      h.elim (fun hh => hn1 (h1.symm.trans hh)) (fun hh => hn2 (h2.symm.trans hh))),
    hl, h1, h2, Nat.cast_max]

theorem transform_support (corpus : List Text) (doc : Text)
    (hw : ¬(extractKeywords doc).length = 0) :
    (transform corpus doc).support = tfidfSupport corpus doc := by
  unfold transform
  rw [if_neg hw]

theorem transform_val (corpus : List Text) (doc : Text)
    (hw : ¬(extractKeywords doc).length = 0) :
    (transform corpus doc).val = tfidfVal corpus doc := by
  unfold transform
  rw [if_neg hw]

theorem transform_norm (corpus : List Text) (doc : Text)
    (hw : ¬(extractKeywords doc).length = 0) :
    (transform corpus doc).norm =
      Real.sqrt ((tfidfSupport corpus doc).sum fun w =>
        tfidfVal corpus doc w * tfidfVal corpus doc w) := by
  unfold transform
  rw [if_neg hw]

theorem idfW_corpus3 (w : Text) (hw : docFreq (problems3.map (·.text)) w = 2) :
    idfW (problems3.map (·.text)) w = 1 := by
  unfold idfW
  rw [hw, show (problems3.map (·.text)).length = 3 from by decide]
  rw [show ((3 : ℕ) : ℝ) / (1 + ((2 : ℕ) : ℝ)) = 1 by norm_num, Real.log_one]
  norm_num

theorem tfidfVal_kaca_0 :
    tfidfVal (problems3.map (·.text)) (textAt problems3 0) "kaca".data = 1 / 3 := by
  unfold tfidfVal
  rw [if_pos (by decide), idfW_corpus3 _ (by decide),
    show (extractKeywords (textAt problems3 0)).count "kaca".data = 1 from by decide,
    show (extractKeywords (textAt problems3 0)).length = 3 from by decide]
  norm_num

theorem tfidfVal_packing_0 :
    tfidfVal (problems3.map (·.text)) (textAt problems3 0) "packing".data = 1 / 3 := by
  unfold tfidfVal
  rw [if_pos (by decide), idfW_corpus3 _ (by decide),
    show (extractKeywords (textAt problems3 0)).count "packing".data = 1 from by decide,
    show (extractKeywords (textAt problems3 0)).length = 3 from by decide]
  norm_num

theorem tfidfVal_kaca_1 :
    tfidfVal (problems3.map (·.text)) (textAt problems3 1) "kaca".data = 1 / 4 := by
  unfold tfidfVal
  rw [if_pos (by decide), idfW_corpus3 _ (by decide),
    show (extractKeywords (textAt problems3 1)).count "kaca".data = 1 from by decide,
    show (extractKeywords (textAt problems3 1)).length = 4 from by decide]
  norm_num

theorem tfidfVal_packing_1 :
    tfidfVal (problems3.map (·.text)) (textAt problems3 1) "packing".data = 1 / 4 := by
  unfold tfidfVal
  rw [if_pos (by decide), idfW_corpus3 _ (by decide),
    show (extractKeywords (textAt problems3 1)).count "packing".data = 1 from by decide,
    show (extractKeywords (textAt problems3 1)).length = 4 from by decide]
  norm_num

theorem cos01_eq_one :
    cosineSimilarity (transform (problems3.map (·.text)) (textAt problems3 0))
      (transform (problems3.map (·.text)) (textAt problems3 1)) = 1 := by
  have hw0 : ¬(extractKeywords (textAt problems3 0)).length = 0 := by decide
  have hw1 : ¬(extractKeywords (textAt problems3 1)).length = 0 := by decide
  have hne : ("kaca".data : Text) ≠ "packing".data := by decide
  have hsup0 : tfidfSupport (problems3.map (·.text)) (textAt problems3 0) =
      {"kaca".data, "packing".data} := by decide
  have hsup1 : tfidfSupport (problems3.map (·.text)) (textAt problems3 1) =
      {"kaca".data, "packing".data} := by decide
  have hnorm0 : (transform (problems3.map (·.text)) (textAt problems3 0)).norm =
      Real.sqrt (2 / 9) := by
    rw [transform_norm _ _ hw0, hsup0, Finset.sum_pair hne,
      tfidfVal_kaca_0, tfidfVal_packing_0]
    norm_num
  have hnorm1 : (transform (problems3.map (·.text)) (textAt problems3 1)).norm =
      Real.sqrt (1 / 8) := by
    rw [transform_norm _ _ hw1, hsup1, Finset.sum_pair hne,
      tfidfVal_kaca_1, tfidfVal_packing_1]
    norm_num
  have hdot : dotProduct (transform (problems3.map (·.text)) (textAt problems3 0))
      (transform (problems3.map (·.text)) (textAt problems3 1)) = 1 / 6 := by
    unfold dotProduct
    rw [transform_support _ _ hw0, transform_support _ _ hw1,
      transform_val _ _ hw0, transform_val _ _ hw1, hsup0, hsup1,
      Finset.inter_self, Finset.sum_pair hne,
      tfidfVal_kaca_0, tfidfVal_packing_0, tfidfVal_kaca_1, tfidfVal_packing_1]
    norm_num
  have hn0 : (transform (problems3.map (·.text)) (textAt problems3 0)).norm ≠ 0 := by
    rw [hnorm0]
    exact (Real.sqrt_pos.mpr (by norm_num)).ne'
  have hn1 : (transform (problems3.map (·.text)) (textAt problems3 1)).norm ≠ 0 := by
    rw [hnorm1]
    exact (Real.sqrt_pos.mpr (by norm_num)).ne'
  unfold cosineSimilarity
  rw [if_neg (fun h => h.elim hn0 hn1), hdot, hnorm0, hnorm1,
    ← Real.sqrt_mul (by norm_num)]
  rw [show (2 / 9 : ℝ) * (1 / 8) = (1 / 6) ^ 2 by norm_num,
    Real.sqrt_sq (by norm_num)]
  norm_num

theorem cos02_eq_zero :
    cosineSimilarity (transform (problems3.map (·.text)) (textAt problems3 0))
      (transform (problems3.map (·.text)) (textAt problems3 2)) = 0 := by
  have hw2 : ¬(extractKeywords (textAt problems3 2)).length = 0 := by decide
  have hsup2 : tfidfSupport (problems3.map (·.text)) (textAt problems3 2) = ∅ := by
    decide
  have hnorm2 : (transform (problems3.map (·.text)) (textAt problems3 2)).norm = 0 := by
    rw [transform_norm _ _ hw2, hsup2, Finset.sum_empty, Real.sqrt_zero]
  unfold cosineSimilarity
  rw [if_pos (Or.inr hnorm2)]

theorem sim01_ge : (0.15 : ℝ) ≤ clusterSim problems3 0 1 := by
  have hJ : calculateSimilarity (generateTrigrams (textAt problems3 0))
      (generateTrigrams (textAt problems3 1)) = 9 / 34 := by
    rw [calculateSimilarity_eval (by decide : (generateTrigrams (textAt problems3 0)).card = 21)
      (by decide : (generateTrigrams (textAt problems3 1)).card = 22)
      (by decide : ((generateTrigrams (textAt problems3 0)) ∩
        (generateTrigrams (textAt problems3 1))).card = 9)
      (by norm_num) (by norm_num) (by norm_num)]
    norm_num
  have hL : calculateLCSSimilarity (textAt problems3 0) (textAt problems3 1) = 1 / 3 := by
    rw [calculateLCSSimilarity_eval (by decide : (textAt problems3 0).length = 23)
      (by decide : (textAt problems3 1).length = 24)
      (by decide : lcsLen (textAt problems3 0) (textAt problems3 1) = 8)
      (by norm_num) (by norm_num)]
    norm_num
  unfold clusterSim semanticCombined
  rw [hJ, hL, cos01_eq_one]
  norm_num

theorem sim02_lt : ¬((0.15 : ℝ) ≤ clusterSim problems3 0 2) := by
  have hJ : calculateSimilarity (generateTrigrams (textAt problems3 0))
      (generateTrigrams (textAt problems3 2)) = 1 / 35 := by
    rw [calculateSimilarity_eval (by decide : (generateTrigrams (textAt problems3 0)).card = 21)
      (by decide : (generateTrigrams (textAt problems3 2)).card = 15)
      (by decide : ((generateTrigrams (textAt problems3 0)) ∩
        (generateTrigrams (textAt problems3 2))).card = 1)
      (by norm_num) (by norm_num) (by norm_num)]
    norm_num
  have hL : calculateLCSSimilarity (textAt problems3 0) (textAt problems3 2) = 3 / 23 := by
    rw [calculateLCSSimilarity_eval (by decide : (textAt problems3 0).length = 23)
      (by decide : (textAt problems3 2).length = 17)
      (by decide : lcsLen (textAt problems3 0) (textAt problems3 2) = 3)
      (by norm_num) (by norm_num)]
    norm_num
  unfold clusterSim semanticCombined
  rw [hJ, hL, cos02_eq_zero]
  norm_num

theorem clusterIndices_problems3 :
    clusterIndices problems3 (0.15 : ℝ) = [[0, 1], [2]] := by
  have h01 := sim01_ge
  have h02 := sim02_lt
  unfold clusterIndices
  rw [show List.range problems3.length = [0, 1, 2] from by decide]
  rw [greedyCluster_cons]
  rw [show List.filter (fun j => decide ((0.15 : ℝ) ≤ clusterSim problems3 0 j)) [1, 2] =
      [1] from by simp [List.filter_cons, h01, h02]]
  rw [show List.filter (fun j => !decide ((0.15 : ℝ) ≤ clusterSim problems3 0 j)) [1, 2] =
      [2] from by simp [List.filter_cons, h01, h02]]
  rw [greedyCluster_cons]
  simp only [List.filter_nil]
  rw [greedyCluster_nil]

theorem clustersOf_problems3 :
    clustersOf problems3 (0.15 : ℝ) =
      [⟨[problems3.getD 0 default, problems3.getD 1 default], 0, 0⟩,
       ⟨[problems3.getD 2 default], 0, 0⟩] := by
  unfold clustersOf
  rw [clusterIndices_problems3]
  rfl

theorem sortClustersByRPN_pair (a b : Cluster) :
    sortClustersByRPN [a, b] =
      if a.rpnScore < b.rpnScore then [b, a] else [a, b] :=
  bubbleSortGo_pair _ a b

theorem recency_two (now : ℝ) (idx : ℕ) :
    calculateRecencyScore
      ⟨[problems3.getD 0 default, problems3.getD 1 default], idx, 0⟩ 90 now = 5 := by
  unfold calculateRecencyScore
  dsimp only
  rw [if_neg (by decide : ¬([problems3.getD 0 default, problems3.getD 1 default] :
    List ProblemData).length = 0)]
  rw [show ([problems3.getD 0 default, problems3.getD 1 default] :
    List ProblemData).filterMap (·.tanggal) = [] from rfl]
  rfl

theorem recency_one (now : ℝ) (idx : ℕ) :
    calculateRecencyScore ⟨[problems3.getD 2 default], idx, 0⟩ 90 now = 5 := by
  unfold calculateRecencyScore
  dsimp only
  rw [if_neg (by decide : ¬([problems3.getD 2 default] :
    List ProblemData).length = 0)]
  rw [show ([problems3.getD 2 default] :
    List ProblemData).filterMap (·.tanggal) = [] from rfl]
  rfl

theorem rpnA (now : ℝ) (idx : ℕ) :
    calculateRPN ⟨[problems3.getD 0 default, problems3.getD 1 default], idx, 0⟩
      defaultRPNConfig now =
      min ((Real.logb 10 3 * 10 * 0.6 + 5 * 0.4) * 10) 100 := by
  unfold calculateRPN defaultRPNConfig
  dsimp only
  rw [if_neg (by decide : ¬([problems3.getD 0 default, problems3.getD 1 default] :
      List ProblemData).length = 0),
    recency_two now idx]
  norm_num

theorem rpnB (now : ℝ) (idx : ℕ) :
    calculateRPN ⟨[problems3.getD 2 default], idx, 0⟩ defaultRPNConfig now =
      min ((Real.logb 10 2 * 10 * 0.6 + 5 * 0.4) * 10) 100 := by
  unfold calculateRPN defaultRPNConfig
  dsimp only
  rw [if_neg (by decide : ¬([problems3.getD 2 default] :
      List ProblemData).length = 0),
    recency_one now idx]
  norm_num

theorem rpnB_le_rpnA :
    min ((Real.logb 10 2 * 10 * 0.6 + 5 * 0.4) * 10) 100 ≤
      min ((Real.logb 10 3 * 10 * 0.6 + 5 * 0.4) * 10) 100 := by
  apply min_le_min _ (le_refl _)
  have h : Real.logb 10 2 ≤ Real.logb 10 3 :=
    Real.logb_le_logb_of_le (by norm_num) (by norm_num) (by norm_num)
  linarith

/-- C3: on the corpus `kaca pecah saat packing`, `kaca retak waktu
packing`, `warna cat berbeda`, clustered at threshold `0.15` with the
clustering weight profile (trigram `0.25`, LCS `0.15`, TF-IDF `0.60`),
the first two reports land in one cluster, the third founds its own
singleton, and after RPN scoring and sorting the top-ranked cluster has
frequency (member count) `2` — at every evaluation time. -/
theorem scenario_clustering (now : ℝ) :
    clusterIndices problems3 (0.15 : ℝ) = [[0, 1], [2]] ∧
      ((clustersOf problems3 (0.15 : ℝ)).map fun c => c.problems.map (·.text)) =
        [["kaca pecah saat packing".data, "kaca retak waktu packing".data],
         ["warna cat berbeda".data]] ∧
      (rankedClusters problems3 (0.15 : ℝ) now).headI.problems.length = 2 := by
  refine ⟨clusterIndices_problems3, ?_, ?_⟩
  · rw [clustersOf_problems3]
    rfl
  · unfold rankedClusters
    rw [clustersOf_problems3, List.map_cons, List.map_cons, List.map_nil,
      sortClustersByRPN_pair]
    rw [if_neg ?_]
    · rfl
    · unfold annotateCluster
      dsimp only
      rw [rpnA, rpnB]
      exact not_lt.mpr rpnB_le_rpnA

end Ranking
